import Mathlib

/- Shallow embedding of the sledge download engine (src/download.rs, src/lib.rs,
src/reporter.rs, src/errors.rs).  HTTP sends, file-system calls and stdout are
modelled as oracles carried in an `Env` record; response bodies are modelled as
the trace of `read` results the streaming copy observes; Rust `u64`/`usize`
arithmetic is modelled with `Nat` (no overflow is reachable: every product in
the range planner is bounded by the 64-bit content length). -/

namespace Sledge

/-- Model of `DEFAULT_BUFF_SIZE` from src/lib.rs: the 1 MiB copy buffer. -/
def DEFAULT_BUFF_SIZE : Nat := 1 * 1024 * 1024

/-- Model of `DownloadError(pub String)` from src/errors.rs. -/
structure DownloadError where
  msg : String
deriving DecidableEq

/-- Model of `std::io::ErrorKind`, separating `Interrupted` (retried by the
copy loop) from every other kind. -/
inductive ErrKind where
  | interrupted : ErrKind
  | other : Nat → ErrKind
deriving DecidableEq

/-- Model of `std::io::Error`: a kind plus the `to_string()` rendering used by
`From<io::Error> for DownloadError`. -/
structure IoError where
  kind : ErrKind
  msg : String
deriving DecidableEq

/-- One observed result of `reader.read(&mut buf)` in `copy_with_reporter`:
either `Ok(len)` (with `len = 0` meaning end of stream) or an error. -/
inductive ReadResult where
  | ok : Nat → ReadResult
  | err : IoError → ReadResult
deriving DecidableEq

/-- Model of `CompletedSegment` from src/reporter.rs (`start`, `len`, `md5`). -/
structure CompletedSegment where
  start : Nat
  len : Nat
  md5 : String
deriving DecidableEq

/-- Model of one `DispositionParam` of the content-disposition header: a
`Filename` parameter carries the result of the `str::from_utf8` check
(`none` when the bytes are not valid UTF-8), other parameters carry nothing. -/
inductive DispParam where
  | filenameParam : Option (List Char) → DispParam
  | otherParam : DispParam
deriving DecidableEq

/-- Model of a `hyper` `Response` as consumed by src/download.rs: status code,
body text (as read by `read_to_string`), optional content-length header,
optional content-disposition parameter list, the URL's path segments, and the
trace of `read` results its body yields to the streaming copy. -/
structure HttpResponse where
  status : Nat
  body : String
  contentLength : Option Nat
  dispParams : Option (List DispParam)
  urlPathSegments : List (List Char)
  bodyReads : List ReadResult
deriving DecidableEq

/-- Model of `DownloadTarget` from src/download.rs. -/
inductive DownloadTarget where
  | File : List Char → DownloadTarget
  | StdOut : DownloadTarget
  | Default : DownloadTarget
deriving DecidableEq

/-- Model of `DownloadMode` from src/download.rs. -/
inductive DownloadMode where
  | Serial : DownloadMode
  | Parallel : Nat → DownloadMode
deriving DecidableEq

/-- Oracle environment for the effectful calls of src/download.rs: the results
of the serial GET send, the parallel HEAD send, each worker's range GET send,
`File::open`, `File::create`, `File::set_len`, `Seek::seek`, and each
successive `write_all` of the copy loop (`none` = success). -/
structure Env where
  sendGet : Except DownloadError HttpResponse
  sendHead : Except DownloadError HttpResponse
  workerSend : Nat → Except DownloadError HttpResponse
  openRes : List Char → Except DownloadError Unit
  createRes : List Char → Except DownloadError Unit
  setLenRes : Nat → Except DownloadError Unit
  seekRes : Nat → Except DownloadError Unit
  writeRes : Nat → Option IoError

/-- Model of hyper's `canonical_reason` table as used by the `Display`
rendering of `StatusCode` (only the entries exercised here are spelled out;
every status renders as its numeric code followed by a reason phrase). -/
def canonical_reason (code : Nat) : String :=
  if code = 200 then "OK"
  else if code = 404 then "Not Found"
  else "<unknown status code>"

/-- Model of `format!("{:}", status)`: hyper renders a status as
`"<code> <canonical reason>"`. -/
def status_display (code : Nat) : String :=
  toString code ++ " " ++ canonical_reason code

/-- Model of `raise_for_status` (src/download.rs lines 202-212): status 200
passes the response through, anything else becomes a `DownloadError` whose
message is the status display, `": "`, and the full body text. -/
def raise_for_status (r : HttpResponse) : Except DownloadError HttpResponse :=
  if r.status ≠ 200 then
    Except.error ⟨status_display r.status ++ ": " ++ r.body⟩
  else
    Except.ok r

/-- Model of `get` (src/download.rs lines 184-190): the send result of the GET
request, classified by `raise_for_status`. -/
def get_result (send : Except DownloadError HttpResponse) :
    Except DownloadError HttpResponse :=
  match send with
  | Except.error e => Except.error e
  | Except.ok r => raise_for_status r

/-- Model of `head` (src/download.rs lines 193-199): the send result of the
HEAD request, classified by `raise_for_status`. -/
def head_result (send : Except DownloadError HttpResponse) :
    Except DownloadError HttpResponse :=
  match send with
  | Except.error e => Except.error e
  | Except.ok r => raise_for_status r

/-- Model of `parse_content_length` (src/download.rs lines 296-302). -/
def parse_content_length (r : HttpResponse) : Except DownloadError Nat :=
  match r.contentLength with
  | some s => Except.ok s
  | none => Except.error ⟨"server did not provide a content length!"⟩

/-- The first `Filename` disposition parameter whose bytes decode as UTF-8,
matching the `map`/`filter_map`/`nth(0)` pipeline of `parse_file_name`. -/
def first_valid : List DispParam → Option (List Char)
  | [] => none
  | DispParam.filenameParam (some s) :: _ => some s
  | DispParam.filenameParam none :: ps => first_valid ps
  | DispParam.otherParam :: ps => first_valid ps

/-- Model of `parse_file_name` (src/download.rs lines 329-350). -/
def parse_file_name (r : HttpResponse) : Except DownloadError (List Char) :=
  match r.dispParams with
  | some params =>
    match first_valid params with
    | some s => Except.ok s
    | none => Except.error ⟨"server did not provide a file name"⟩
  | none => Except.error ⟨"server did not provide a file name"⟩

/-- Splitting a character list at `'/'`, modelling how `std::path::Path`
separates components for `file_name()`. -/
def splitSlash : List Char → List (List Char)
  | [] => [[]]
  | c :: cs =>
    match splitSlash cs with
    | [] => [[]]
    | h :: t => if c = '/' then [] :: h :: t else (c :: h) :: t

/-- Model of `Path::new(name).file_name()`: the last non-empty, non-`"."`
component, unless it is `".."` (in which case Rust returns `None`). -/
def path_file_name (l : List Char) : Option (List Char) :=
  match ((splitSlash l).filter (fun c => !c.isEmpty && c != ['.'])).getLast? with
  | none => none
  | some c => if c = ['.', '.'] then none else some c

/-- The file name chosen by `open_default_file_target` before stripping:
the disposition-provided name when `parse_file_name` succeeds, otherwise the
final path segment of the URL (`none` models the `unwrap()` panic when the
URL has no path segments). -/
def resolved_file_name (r : HttpResponse) : Option (List Char) :=
  match parse_file_name r with
  | Except.ok name => some name
  | Except.error _ => r.urlPathSegments.getLast?

/-- The path actually handed to `File::create`: the resolved name with
directory components stripped by `Path::file_name()`. -/
def created_path (r : HttpResponse) : Option (List Char) :=
  (resolved_file_name r).bind path_file_name

/-- Model of `open_default_file_target` (src/download.rs lines 305-325),
returning the created file's name; the two `unwrap()` panics of the source are
modelled as explicit error values. -/
def open_default_file_target (env : Env) (r : HttpResponse) :
    Except DownloadError (List Char) :=
  match resolved_file_name r with
  | none => Except.error ⟨"panic: response url has no path segments"⟩
  | some name =>
    match path_file_name name with
    | none => Except.error ⟨"panic: file name has no final component"⟩
    | some p =>
      match env.createRes p with
      | Except.ok _ => Except.ok p
      | Except.error e =>
        Except.error
          ⟨"unable to open file " ++ name.asString ++ " for writing: " ++ e.msg⟩

/-- Model of `set_target_len` (src/download.rs lines 215-232). -/
def set_target_len (env : Env) (target : DownloadTarget) (size : Nat)
    (r : HttpResponse) : Except DownloadError Unit :=
  match target with
  | DownloadTarget.Default =>
    match open_default_file_target env r with
    | Except.error e => Except.error e
    | Except.ok _ => env.setLenRes size
  | DownloadTarget.File p =>
    match env.openRes p with
    | Except.error e => Except.error e
    | Except.ok _ => env.setLenRes size
  | DownloadTarget.StdOut => Except.error ⟨"Cannot take offset on stdout"⟩

/-- Model of the loop body of `copy_with_reporter` (src/download.rs lines
276-292): consume the read trace, retry `Interrupted` reads, abort on any
other read error or on a failed `write_all`, append one `CompletedSegment`
(with `start` = running total after the write, `len` = bytes written,
`md5 = ""`) per successful write, and return the running total on `Ok(0)`
(or on trace exhaustion, modelling a reader that has reached end of stream). -/
def copy_loop (w : Nat → Option IoError) :
    List ReadResult → Nat → Nat → Except IoError Nat × List CompletedSegment
  | [], _, written => (Except.ok written, [])
  | ReadResult.ok 0 :: _, _, written => (Except.ok written, [])
  | ReadResult.ok (len + 1) :: rs, i, written =>
    match w i with
    | some e => (Except.error e, [])
    | none =>
      let rest := copy_loop w rs (i + 1) (written + (len + 1))
      (rest.1, CompletedSegment.mk (written + (len + 1)) (len + 1) "" :: rest.2)
  | ReadResult.err e :: rs, i, written =>
    match e.kind with
    | ErrKind.interrupted => copy_loop w rs i written
    | ErrKind.other _ => (Except.error e, [])

/-- Model of `copy_with_reporter` (src/download.rs lines 263-293): the loop
started with write index 0 and running total 0, also returning the list of
progress events sent, in emission order. -/
def copy_with_reporter (w : Nat → Option IoError) (rs : List ReadResult) :
    Except IoError Nat × List CompletedSegment :=
  copy_loop w rs 0 0

/-- Model of `From<io::Error> for DownloadError` (src/errors.rs). -/
def ioToDownload (e : IoError) : DownloadError := ⟨e.msg⟩

/-- The copy step shared by every branch of `stream`: run the buffered copy on
the response body and convert an io error into a `DownloadError`. -/
def stream_copy (env : Env) (r : HttpResponse) :
    Except DownloadError Nat × List CompletedSegment :=
  let res := copy_with_reporter env.writeRes r.bodyReads
  (match res.1 with
   | Except.ok n => Except.ok n
   | Except.error e => Except.error (ioToDownload e), res.2)

/-- Model of `stream` (src/download.rs lines 235-258): parse the content
length, then for the file-backed targets open the file, seek to `offset` and
copy; for `StdOut` copy directly — the `offset` argument is not consulted. -/
def stream (env : Env) (target : DownloadTarget) (offset : Nat)
    (r : HttpResponse) : Except DownloadError Nat × List CompletedSegment :=
  match parse_content_length r with
  | Except.error e => (Except.error e, [])
  | Except.ok _ =>
    match target with
    | DownloadTarget.Default =>
      match open_default_file_target env r with
      | Except.error e => (Except.error e, [])
      | Except.ok _ =>
        match env.seekRes offset with
        | Except.error e => (Except.error e, [])
        | Except.ok _ => stream_copy env r
    | DownloadTarget.File p =>
      match env.openRes p with
      | Except.error e => (Except.error e, [])
      | Except.ok _ =>
        match env.seekRes offset with
        | Except.error e => (Except.error e, [])
        | Except.ok _ => stream_copy env r
    | DownloadTarget.StdOut => stream_copy env r

/-- Model of `block_size = size / (n as u64)` (src/download.rs line 149). -/
def block_size (size n : Nat) : Nat := size / n

/-- Model of the per-worker range computed at src/download.rs lines 161-162:
`start = min(i * block_size, size)`, `end = min((i+1) * block_size, size)`. -/
def segment (size n i : Nat) : Nat × Nat :=
  (min (i * block_size size n) size, min ((i + 1) * block_size size n) size)

/-- The full range plan: the segment of every worker `i` in `0..n`. -/
def plan (size n : Nat) : List (Nat × Nat) :=
  (List.range n).map (segment size n)

/-- Byte offset `x` is covered by some segment of the plan, reading each
segment as the half-open interval `[start, end)`. -/
def inPlan (size n x : Nat) : Prop :=
  ∃ s ∈ plan size n, s.1 ≤ x ∧ x < s.2

/-- Model of one spawned worker's closure (src/download.rs lines 165-170):
a range-qualified GET classified by `raise_for_status`, then `stream` at the
segment's start; the orchestrator discards this result. -/
def worker_result (env : Env) (target : DownloadTarget) (i : Nat)
    (seg : Nat × Nat) : Except DownloadError Nat × List CompletedSegment :=
  match get_result (env.workerSend i) with
  | Except.error e => (Except.error e, [])
  | Except.ok resp => stream env target seg.1 resp

/-- Model of `download_serial` (src/download.rs lines 124-140), also returning
the progress events of the single streaming copy. -/
def download_serial (env : Env) (target : DownloadTarget) :
    Except DownloadError Nat × List CompletedSegment :=
  match get_result env.sendGet with
  | Except.error e => (Except.error e, [])
  | Except.ok r =>
    match parse_content_length r with
    | Except.error e => (Except.error e, [])
    | Except.ok size =>
      match set_target_len env target size r with
      | Except.error e => (Except.error e, [])
      | Except.ok _ => stream env target 0 r

/-- Model of `download_parallel` (src/download.rs lines 143-180), also
returning the segments for which workers were spawned.  Worker join results
are discarded (`let _ = child.join()`), so no worker oracle is consulted and
the success value is the probed size. -/
def download_parallel (env : Env) (target : DownloadTarget) (n : Nat) :
    Except DownloadError Nat × List (Nat × Nat) :=
  match head_result env.sendHead with
  | Except.error e => (Except.error e, [])
  | Except.ok h =>
    match parse_content_length h with
    | Except.error e => (Except.error e, [])
    | Except.ok size =>
      match set_target_len env target size h with
      | Except.error e => (Except.error e, [])
      | Except.ok _ => (Except.ok size, plan size n)

/-- Model of `Download::download` (src/download.rs lines 115-121). -/
def download (env : Env) (target : DownloadTarget) (mode : DownloadMode) :
    Except DownloadError Nat :=
  match mode with
  | DownloadMode.Serial => (download_serial env target).1
  | DownloadMode.Parallel n => (download_parallel env target n).1

/-- Model of the `Download` configuration struct (src/download.rs lines
63-76); `ρ` stands for the reporter type parameter `R`. -/
structure Download (ρ : Type) where
  url : String
  target : DownloadTarget
  headers : List (String × String)
  mode : DownloadMode
  reporter : ρ

/-- Model of `Download::new` (src/download.rs lines 83-91); `rep` stands for
the value produced by `R::new()`. -/
def Download.new {ρ : Type} (url : String) (rep : ρ) : Download ρ :=
  { headers := [], mode := DownloadMode.Serial, url := url,
    target := DownloadTarget.Default, reporter := rep }

/-- Model of the builder method `Download::headers` (lines 94-98). -/
def Download.setHeaders {ρ : Type} (d : Download ρ)
    (h : List (String × String)) : Download ρ :=
  { d with headers := h }

/-- Model of the builder method `Download::target` (lines 101-105). -/
def Download.setTarget {ρ : Type} (d : Download ρ) (t : DownloadTarget) :
    Download ρ :=
  { d with target := t }

/-- Model of the builder method `Download::mode` (lines 108-112). -/
def Download.setMode {ρ : Type} (d : Download ρ) (m : DownloadMode) :
    Download ρ :=
  { d with mode := m }

/-- Sum of the `len` fields of a list of progress events. -/
def sumLens (l : List CompletedSegment) : Nat :=
  (l.map CompletedSegment.len).sum

/-- Events are well-formed from running total `base`: each has empty `md5`, a
positive `len`, and `start` equal to the running total after its write. -/
def goodEvents : Nat → List CompletedSegment → Bool
  | _, [] => true
  | base, e :: rest =>
    e.md5 == "" && e.len != 0 && e.start == base + e.len &&
      goodEvents (base + e.len) rest

/- Concrete fixtures used by witnesses and counterexamples. -/

/-- A 404 response with body `"not found"`. -/
def respNotFound : HttpResponse :=
  { status := 404, body := "not found", contentLength := none,
    dispParams := none, urlPathSegments := [[]], bodyReads := [] }

/-- A 200 response of length 3 whose body yields one 3-byte read. -/
def respOk3 : HttpResponse :=
  { status := 200, body := "", contentLength := some 3,
    dispParams := none, urlPathSegments := [['f']],
    bodyReads := [ReadResult.ok 3, ReadResult.ok 0] }

/-- A 200 response of length 10 carrying a content-disposition filename
parameter `report.csv`, with a URL whose last path segment is `other.bin`. -/
def respReport : HttpResponse :=
  { status := 200, body := "", contentLength := some 10,
    dispParams := some [DispParam.filenameParam (some "report.csv".toList)],
    urlPathSegments := ["data".toList, "other.bin".toList],
    bodyReads := [ReadResult.ok 0] }

/-- An environment in which every oracle succeeds. -/
def okEnv : Env :=
  { sendGet := Except.ok respOk3, sendHead := Except.ok respOk3,
    workerSend := fun _ => Except.ok respOk3,
    openRes := fun _ => Except.ok (), createRes := fun _ => Except.ok (),
    setLenRes := fun _ => Except.ok (), seekRes := fun _ => Except.ok (),
    writeRes := fun _ => none }

/-- `okEnv` with a HEAD probe answering `respReport`. -/
def headEnv : Env := { okEnv with sendHead := Except.ok respReport }

/-- `okEnv` with a failing GET send. -/
def errEnv : Env := { okEnv with sendGet := Except.error ⟨"boom"⟩ }

/-- A write oracle on which every `write_all` succeeds. -/
def wNone : Nat → Option IoError := fun _ => none

/-- A small read trace: a 2-byte read, an interrupted read, a 3-byte read,
then end of stream. -/
def demoReads : List ReadResult :=
  [ReadResult.ok 2, ReadResult.err ⟨ErrKind.interrupted, "sig"⟩,
   ReadResult.ok 3, ReadResult.ok 0]

/- C1: the range plan. -/

/-- C1 counterexample: for `totalLength = 10`, `workerCount = 3` the code's
plan is `[0,3), [3,6), [6,9)` — not `[0,3), [3,6), [6,10)` as the claim
states — and byte offset 9 (which is below the total length 10) is covered by
no segment, so the union of the segments is not `[0, 10)`. -/
theorem plan_coverage_counterexample :
    plan 10 3 = [(0, 3), (3, 6), (6, 9)]
    ∧ plan 10 3 ≠ [(0, 3), (3, 6), (6, 10)]
    ∧ ¬ inPlan 10 3 9
    ∧ 9 < 10 := by
  refine ⟨by decide, by decide, ?_, by decide⟩
  rw [inPlan]
  decide

/-- C1 (amended): for every `totalLength ≥ 0` and `workerCount ≥ 1` the plan
produces exactly `workerCount` segments, pairwise non-overlapping (each
segment ends no later than every later segment starts), with non-decreasing
starts, and whose union as a set of byte offsets is exactly
`[0, workerCount * (totalLength / workerCount))` — a subset of
`[0, totalLength)` which equals `[0, totalLength)` exactly when `workerCount`
divides `totalLength`; the remainder of the truncating division is not
absorbed by the last segment. -/
theorem plan_spec (L n : Nat) (hn : 1 ≤ n) :
    (plan L n).length = n
    ∧ (∀ i j, i < j → (segment L n i).2 ≤ (segment L n j).1)
    ∧ (∀ i j, i ≤ j → (segment L n i).1 ≤ (segment L n j).1)
    ∧ (∀ x, inPlan L n x ↔ x < n * (L / n))
    ∧ n * (L / n) ≤ L
    ∧ (L % n = 0 → n * (L / n) = L) := by
  have hnL : n * (L / n) ≤ L := by
    rw [Nat.mul_comm]; exact Nat.div_mul_le_self L n
  refine ⟨?_, ?_, ?_, ?_, hnL, ?_⟩
  · simp [plan]
  · intro i j hij
    exact min_le_min (Nat.mul_le_mul_right _ hij) (le_refl L)
  · intro i j hij
    exact min_le_min (Nat.mul_le_mul_right _ hij) (le_refl L)
  · intro x
    constructor
    · rintro ⟨s, hs, hx1, hx2⟩
      rw [plan, List.mem_map] at hs
      obtain ⟨i, hi, rfl⟩ := hs
      rw [List.mem_range] at hi
      have h1 : x < (i + 1) * block_size L n :=
        lt_of_lt_of_le hx2 (min_le_left _ _)
      have h2 : (i + 1) * block_size L n ≤ n * block_size L n :=
        Nat.mul_le_mul_right _ hi
      exact lt_of_lt_of_le h1 h2
    · intro hx
      have hx' : x < n * block_size L n := hx
      have hb : 0 < block_size L n := by
        rcases Nat.eq_zero_or_pos (block_size L n) with h0 | h
        · rw [h0, Nat.mul_zero] at hx'
          exact absurd hx' (Nat.not_lt_zero x)
        · exact h
      have hin : x / block_size L n < n :=
        (Nat.div_lt_iff_lt_mul hb).2 hx'
      refine ⟨segment L n (x / block_size L n), ?_, ?_, ?_⟩
      · rw [plan, List.mem_map]
        exact ⟨x / block_size L n, List.mem_range.2 hin, rfl⟩
      · exact le_trans (min_le_left _ _) (Nat.div_mul_le_self x _)
      · have hxlt : x < (x / block_size L n + 1) * block_size L n := by
          have hmod : x % block_size L n < block_size L n := Nat.mod_lt x hb
          calc x = block_size L n * (x / block_size L n) + x % block_size L n :=
                (Nat.div_add_mod x _).symm
            _ < block_size L n * (x / block_size L n) + block_size L n :=
                Nat.add_lt_add_left hmod _
            _ = (x / block_size L n + 1) * block_size L n := by ring
        have hle : (x / block_size L n + 1) * block_size L n ≤ L :=
          le_trans (Nat.mul_le_mul_right _ hin) hnL
        exact lt_min hxlt (lt_of_lt_of_le hxlt hle)
  · intro h
    exact Nat.mul_div_cancel' (Nat.dvd_of_mod_eq_zero h)

/-- Witness for `plan_spec` at `totalLength = 10`, `workerCount = 3`. -/
theorem plan_spec_witness : (plan 10 3).length = 3 :=
  (plan_spec 10 3 (by decide)).1

/- C2: parallel mode joins every worker and reports the probed size. -/

/-- C2: in parallel mode, whenever the HEAD probe, the content-length parse
and the target pre-sizing all succeed, `download` returns `Ok(size)` with
`size` the probed content length, one worker is spawned per planned segment,
and the result does not depend on the worker outcomes in any way (the
orchestrator joins every worker and discards each join result). -/
theorem parallel_join_spec (env : Env) (target : DownloadTarget) (n : Nat)
    (h : HttpResponse) (size : Nat)
    (hh : head_result env.sendHead = Except.ok h)
    (hs : parse_content_length h = Except.ok size)
    (ht : set_target_len env target size h = Except.ok ()) :
    download env target (DownloadMode.Parallel n) = Except.ok size
    ∧ (download_parallel env target n).2 = plan size n
    ∧ ∀ f, download_parallel { env with workerSend := f } target n
        = download_parallel env target n := by
  refine ⟨?_, ?_, ?_⟩
  · simp [download, download_parallel, hh, hs, ht]
  · simp [download_parallel, hh, hs, ht]
  · intro f
    rfl

/-- Witness for `parallel_join_spec`: a HEAD probe answering a 200 response
of length 10 against a default file target, with three workers. -/
theorem parallel_join_spec_witness :
    download headEnv DownloadTarget.Default (DownloadMode.Parallel 3)
      = Except.ok 10 :=
  (parallel_join_spec headEnv DownloadTarget.Default 3 respReport 10
    rfl rfl rfl).1

/- C3: serial mode propagates the first error. -/

/-- C3: in serial mode, a failure of the initial GET send, of the status
classification, of the content-length parse, or of the target sizing is
returned as the final result of `download_serial`; when all of those succeed,
the final result is exactly the result of the single streaming copy
(`stream`), byte count and progress events included. -/
theorem serial_propagation_spec (env : Env) (target : DownloadTarget) :
    (∀ e, env.sendGet = Except.error e →
        (download_serial env target).1 = Except.error e)
    ∧ (∀ r, env.sendGet = Except.ok r → r.status ≠ 200 →
        (download_serial env target).1
          = Except.error ⟨status_display r.status ++ ": " ++ r.body⟩)
    ∧ (∀ r, env.sendGet = Except.ok r → r.status = 200 →
        r.contentLength = none →
        (download_serial env target).1
          = Except.error ⟨"server did not provide a content length!"⟩)
    ∧ (∀ r size e, env.sendGet = Except.ok r → r.status = 200 →
        r.contentLength = some size →
        set_target_len env target size r = Except.error e →
        (download_serial env target).1 = Except.error e)
    ∧ (∀ r size, env.sendGet = Except.ok r → r.status = 200 →
        r.contentLength = some size →
        set_target_len env target size r = Except.ok () →
        download_serial env target = stream env target 0 r) := by
  refine ⟨?_, ?_, ?_, ?_, ?_⟩
  · intro e he
    simp [download_serial, get_result, he]
  · intro r hr hst
    simp [download_serial, get_result, raise_for_status, hr, hst]
  · intro r hr hst hcl
    simp [download_serial, get_result, raise_for_status, parse_content_length,
      hr, hst, hcl]
  · intro r size e hr hst hcl hsz
    simp [download_serial, get_result, raise_for_status, parse_content_length,
      hr, hst, hcl, hsz]
  · intro r size hr hst hcl hsz
    simp [download_serial, get_result, raise_for_status, parse_content_length,
      hr, hst, hcl, hsz]

/-- Witness for `serial_propagation_spec`: a failing GET send aborts the
serial download with that send's error. -/
theorem serial_propagation_spec_witness :
    (download_serial errEnv DownloadTarget.Default).1
      = Except.error ⟨"boom"⟩ :=
  (serial_propagation_spec errEnv DownloadTarget.Default).1 ⟨"boom"⟩ rfl

/- C6: parallel mode onto stdout fails during sizing. -/

/-- C6: with destination `StdOut` and mode `Parallel(n)`, once the HEAD probe
and the content-length parse succeed, `download` fails with the
cannot-take-offset-on-stdout error, no worker is spawned (the spawned-segment
list is empty, so no range-qualified GET is issued), and the `StdOut` branch
of `set_target_len` returns this error for every environment, size and
response. -/
theorem parallel_stdout_spec (env : Env) (n : Nat) (h : HttpResponse)
    (size : Nat)
    (hh : head_result env.sendHead = Except.ok h)
    (hs : parse_content_length h = Except.ok size) :
    download env DownloadTarget.StdOut (DownloadMode.Parallel n)
      = Except.error ⟨"Cannot take offset on stdout"⟩
    ∧ (download_parallel env DownloadTarget.StdOut n).2 = []
    ∧ (∀ (env2 : Env) (size2 : Nat) (r : HttpResponse),
        set_target_len env2 DownloadTarget.StdOut size2 r
          = Except.error ⟨"Cannot take offset on stdout"⟩) := by
  refine ⟨?_, ?_, ?_⟩
  · simp [download, download_parallel, hh, hs, set_target_len]
  · simp [download_parallel, hh, hs, set_target_len]
  · intro env2 size2 r
    rfl

/-- Witness for `parallel_stdout_spec`: stdout destination with four
workers. -/
theorem parallel_stdout_spec_witness :
    download headEnv DownloadTarget.StdOut (DownloadMode.Parallel 4)
      = Except.error ⟨"Cannot take offset on stdout"⟩ :=
  (parallel_stdout_spec headEnv 4 respReport 10 rfl rfl).1

/- C7: `stream` on `StdOut` does not reject positioned writes. -/

/-- C7 counterexample: streaming into the `StdOut` target at the nonzero
offset 5 is not refused — it succeeds, copying the whole 3-byte body and
emitting a progress event, contrary to the claim that every positioned
streaming request on `StdOut` is refused with an error. -/
theorem stream_stdout_counterexample :
    (stream okEnv DownloadTarget.StdOut 5 respOk3).1 = Except.ok 3
    ∧ (stream okEnv DownloadTarget.StdOut 5 respOk3).2
        = [CompletedSegment.mk 3 3 ""] := by
  exact ⟨rfl, rfl⟩

/-- C7 (amended): the `StdOut` branch of `stream` ignores the requested
offset entirely — for every offset the result (both outcome and events)
equals offset-zero streaming, with no seek performed; positioned use of
stdout is rejected only by the sizing step, whose `StdOut` branch always
returns the cannot-take-offset-on-stdout error. -/
theorem stream_stdout_spec :
    (∀ (env : Env) (r : HttpResponse) (offset : Nat),
        stream env DownloadTarget.StdOut offset r
          = stream env DownloadTarget.StdOut 0 r)
    ∧ (∀ (env : Env) (size : Nat) (r : HttpResponse),
        set_target_len env DownloadTarget.StdOut size r
          = Except.error ⟨"Cannot take offset on stdout"⟩) := by
  constructor
  · intro env r offset
    cases hr : r.contentLength <;> simp [stream, parse_content_length, hr]
  · intro env size r
    rfl

/- C4: status classification. -/

/-- C4: `raise_for_status` — and therefore both `get` and `head`, which are
the send result classified by it — succeeds exactly when the response status
is 200; for any other status it produces a `DownloadError` whose message
contains both the status code (as a decimal digit string) and the full
response body text. -/
theorem raise_for_status_spec :
    (∀ r : HttpResponse, r.status = 200 → raise_for_status r = Except.ok r)
    ∧ (∀ r : HttpResponse,
        (∃ r2, raise_for_status r = Except.ok r2) ↔ r.status = 200)
    ∧ (∀ r : HttpResponse, r.status ≠ 200 →
        raise_for_status r
          = Except.error ⟨status_display r.status ++ ": " ++ r.body⟩
        ∧ (∃ pre post, (status_display r.status ++ ": " ++ r.body).data
            = pre ++ (toString r.status).data ++ post)
        ∧ (∃ pre, (status_display r.status ++ ": " ++ r.body).data
            = pre ++ r.body.data))
    ∧ (∀ r, get_result (Except.ok r) = raise_for_status r)
    ∧ (∀ r, head_result (Except.ok r) = raise_for_status r) := by
  refine ⟨?_, ?_, ?_, ?_, ?_⟩
  · intro r h
    simp [raise_for_status, h]
  · intro r
    constructor
    · rintro ⟨r2, h2⟩
      by_contra hne
      simp [raise_for_status, hne] at h2
    · intro h
      exact ⟨r, by simp [raise_for_status, h]⟩
  · intro r h
    refine ⟨by simp [raise_for_status, h], ?_, ?_⟩
    · refine ⟨[], (" " ++ canonical_reason r.status ++ ": " ++ r.body).data, ?_⟩
      simp [status_display, String.data_append, List.append_assoc]
    · exact ⟨(status_display r.status ++ ": ").data,
        by simp [String.data_append]⟩
  · intro r
    rfl
  · intro r
    rfl

/-- Witness for `raise_for_status_spec`: the 404 response with body
`"not found"` is classified as the expected error. -/
theorem raise_for_status_spec_witness :
    raise_for_status respNotFound
      = Except.error ⟨status_display 404 ++ ": " ++ "not found"⟩ :=
  (raise_for_status_spec.2.2.1 respNotFound (by decide)).1

/- C5: the buffered copy loop. -/

/-- Unfolding of `sumLens` over a cons. -/
theorem sumLens_cons (e : CompletedSegment) (l : List CompletedSegment) :
    sumLens (e :: l) = e.len + sumLens l := by
  simp [sumLens]

/-- When the copy loop returns `Ok(t)`, `t` is the starting total plus the sum
of the lengths of the progress events it emitted. -/
theorem copy_loop_sum (w : Nat → Option IoError) :
    ∀ (rs : List ReadResult) (i written t : Nat),
      (copy_loop w rs i written).1 = Except.ok t →
      t = written + sumLens (copy_loop w rs i written).2 := by
  intro rs
  induction rs with
  | nil =>
    intro i written t h
    simp [copy_loop] at h
    simp [copy_loop, sumLens, h]
  | cons r rest ih =>
    intro i written t h
    cases r with
    | ok len =>
      cases len with
      | zero =>
        simp [copy_loop] at h
        simp [copy_loop, sumLens, h]
      | succ m =>
        cases hw : w i with
        | some e =>
          rw [copy_loop, hw] at h
          simp at h
        | none =>
          rw [copy_loop, hw] at h
          simp at h
          have := ih (i + 1) (written + (m + 1)) t h
          rw [copy_loop, hw]
          simp [sumLens_cons]
          omega
    | err e =>
      cases he : e.kind with
      | interrupted =>
        rw [copy_loop, he] at h
        rw [copy_loop, he]
        exact ih i written t h
      | other k =>
        rw [copy_loop, he] at h
        simp at h

/-- C5: the copy loop terminates successfully on a zero-byte read, returning
the running total; interrupted reads are retried transparently without
touching the total, the write index or the events; any other read error, and
any write error, aborts the copy with that error; each successful write
appends exactly one progress event carrying its length; on success the
emitted event lengths sum to the returned total; `copy_with_reporter` is the
loop started at zero; and the copy buffer is the 1 MiB
`DEFAULT_BUFF_SIZE`. -/
theorem copy_with_reporter_spec (w : Nat → Option IoError)
    (rs : List ReadResult) (i written : Nat) :
    (copy_loop w (ReadResult.ok 0 :: rs) i written = (Except.ok written, []))
    ∧ (∀ e, e.kind = ErrKind.interrupted →
        copy_loop w (ReadResult.err e :: rs) i written
          = copy_loop w rs i written)
    ∧ (∀ e, e.kind ≠ ErrKind.interrupted →
        copy_loop w (ReadResult.err e :: rs) i written
          = (Except.error e, []))
    ∧ (∀ len e, w i = some e →
        copy_loop w (ReadResult.ok (len + 1) :: rs) i written
          = (Except.error e, []))
    ∧ (∀ len, w i = none →
        copy_loop w (ReadResult.ok (len + 1) :: rs) i written
          = ((copy_loop w rs (i + 1) (written + (len + 1))).1,
             CompletedSegment.mk (written + (len + 1)) (len + 1) ""
               :: (copy_loop w rs (i + 1) (written + (len + 1))).2))
    ∧ (∀ t, (copy_loop w rs i written).1 = Except.ok t →
        t = written + sumLens (copy_loop w rs i written).2)
    ∧ copy_with_reporter w rs = copy_loop w rs 0 0
    ∧ DEFAULT_BUFF_SIZE = 1 * 1024 * 1024 := by
  refine ⟨rfl, ?_, ?_, ?_, ?_, ?_, rfl, rfl⟩
  · intro e he
    rw [copy_loop, he]
  · intro e he
    rw [copy_loop]
    cases hk : e.kind with
    | interrupted => exact absurd hk he
    | other k => rfl
  · intro len e hw
    rw [copy_loop, hw]
  · intro len hw
    rw [copy_loop, hw]
  · intro t
    exact copy_loop_sum w rs i written t

/-- Witness for `copy_with_reporter_spec`: on the demo trace (2 bytes, an
interrupted read, 3 bytes, end of stream) with all writes succeeding, the
returned total 5 equals the sum of the emitted event lengths. -/
theorem copy_with_reporter_spec_witness :
    (5 : Nat) = 0 + sumLens (copy_loop wNone demoReads 0 0).2 :=
  (copy_with_reporter_spec wNone demoReads 0 0).2.2.2.2.2.1 5 rfl

/- C8: shape of the emitted progress events. -/

/-- Every event list produced by the copy loop is well-formed from its
starting total: empty `md5`, positive lengths, and each `start` equal to the
running total after that event's write. -/
theorem copy_loop_good (w : Nat → Option IoError) :
    ∀ (rs : List ReadResult) (i written : Nat),
      goodEvents written (copy_loop w rs i written).2 = true := by
  intro rs
  induction rs with
  | nil =>
    intro i written
    simp [copy_loop, goodEvents]
  | cons r rest ih =>
    intro i written
    cases r with
    | ok len =>
      cases len with
      | zero => simp [copy_loop, goodEvents]
      | succ m =>
        cases hw : w i with
        | some e => simp [copy_loop, hw, goodEvents]
        | none =>
          rw [copy_loop, hw]
          simp [goodEvents]
          exact ih (i + 1) (written + (m + 1))
    | err e =>
      cases he : e.kind with
      | interrupted =>
        rw [copy_loop, he]
        exact ih i written
      | other k =>
        simp [copy_loop, he, goodEvents]

/-- A well-formed event list has strictly increasing `start` offsets. -/
theorem goodEvents_chain :
    ∀ (l : List CompletedSegment) (base : Nat),
      goodEvents base l = true →
      List.Chain' (fun a b => a.start < b.start) l := by
  intro l
  induction l with
  | nil =>
    intro base _
    simp
  | cons e rest ih =>
    intro base h
    cases rest with
    | nil => simp
    | cons e2 rest2 =>
      have h1 : (e.md5 == "" && e.len != 0 && e.start == base + e.len &&
          goodEvents (base + e.len) (e2 :: rest2)) = true := h
      simp only [Bool.and_eq_true, beq_iff_eq, bne_iff_ne] at h1
      obtain ⟨⟨⟨_, hlen⟩, hstart⟩, htail⟩ := h1
      have h2 : (e2.md5 == "" && e2.len != 0 &&
          e2.start == (base + e.len) + e2.len &&
          goodEvents ((base + e.len) + e2.len) rest2) = true := htail
      simp only [Bool.and_eq_true, beq_iff_eq, bne_iff_ne] at h2
      obtain ⟨⟨⟨_, hlen2⟩, hstart2⟩, _⟩ := h2
      rw [List.chain'_cons]
      refine ⟨?_, ih (base + e.len) htail⟩
      omega

/-- A well-formed event list has an empty checksum on every event. -/
theorem goodEvents_md5 :
    ∀ (l : List CompletedSegment) (base : Nat),
      goodEvents base l = true → ∀ e ∈ l, e.md5 = "" := by
  intro l
  induction l with
  | nil =>
    intro base _ e he
    simp at he
  | cons e0 rest ih =>
    intro base h e he
    have h1 : (e0.md5 == "" && e0.len != 0 && e0.start == base + e0.len &&
        goodEvents (base + e0.len) rest) = true := h
    simp only [Bool.and_eq_true, beq_iff_eq, bne_iff_ne] at h1
    obtain ⟨⟨⟨hm, _⟩, _⟩, htail⟩ := h1
    rcases List.mem_cons.1 he with rfl | hmem
    · exact hm
    · exact ih (base + e0.len) htail e hmem

/-- C8: every progress event emitted by the copy loop carries an empty
checksum string, and within one copy the events are well-formed from running
total zero — each event's `start` is the running byte total ending at that
event's write — which forces the events' offsets to be strictly
increasing. -/
theorem progress_events_spec (w : Nat → Option IoError)
    (rs : List ReadResult) :
    goodEvents 0 (copy_with_reporter w rs).2 = true
    ∧ (∀ e ∈ (copy_with_reporter w rs).2, e.md5 = "")
    ∧ List.Chain' (fun a b => a.start < b.start) (copy_with_reporter w rs).2
    ∧ (∀ (base : Nat) (l : List CompletedSegment), goodEvents base l = true →
        List.Chain' (fun a b => a.start < b.start) l) := by
  have hg : goodEvents 0 (copy_with_reporter w rs).2 = true :=
    copy_loop_good w rs 0 0
  exact ⟨hg, goodEvents_md5 _ 0 hg, goodEvents_chain _ 0 hg,
    fun base l h => goodEvents_chain l base h⟩

/-- Witness for `progress_events_spec`: the events of the demo trace are
`(start 2, len 2)` then `(start 5, len 3)`, in strictly increasing order with
empty checksums. -/
theorem progress_events_spec_witness :
    (copy_with_reporter wNone demoReads).2
      = [CompletedSegment.mk 2 2 "", CompletedSegment.mk 5 3 ""]
    ∧ (∀ e ∈ (copy_with_reporter wNone demoReads).2, e.md5 = "") :=
  ⟨rfl, (progress_events_spec wNone demoReads).2.1⟩

/- C10: the configuration builder. -/

/-- C10: `Download::new(url)` yields mode `Serial`, target `Default`, an empty
header set and the given url, and each builder method replaces exactly its
own field, leaving the url and every other field (reporter included)
unchanged. -/
theorem builder_spec {ρ : Type} (rep : ρ) (u : String) :
    Download.new u rep
      = { url := u, target := DownloadTarget.Default, headers := [],
          mode := DownloadMode.Serial, reporter := rep }
    ∧ (∀ (d : Download ρ) hs, d.setHeaders hs = { d with headers := hs })
    ∧ (∀ (d : Download ρ) t, d.setTarget t = { d with target := t })
    ∧ (∀ (d : Download ρ) m, d.setMode m = { d with mode := m }) :=
  ⟨rfl, fun _ _ => rfl, fun _ _ => rfl, fun _ _ => rfl⟩

/- C9: destination file naming. -/

/-- `splitSlash` never returns an empty component list. -/
theorem splitSlash_ne_nil (l : List Char) : splitSlash l ≠ [] := by
  cases l with
  | nil => simp [splitSlash]
  | cons c cs =>
    rw [splitSlash]
    cases h : splitSlash cs with
    | nil => simp
    | cons a t =>
      by_cases hc : c = '/' <;> simp [hc]

/-- No component produced by `splitSlash` contains a slash. -/
theorem splitSlash_no_slash :
    ∀ (l : List Char) (c : List Char), c ∈ splitSlash l → '/' ∉ c := by
  intro l
  induction l with
  | nil =>
    intro c hc
    simp [splitSlash] at hc
    simp [hc]
  | cons ch cs ih =>
    intro c hc
    cases hsc : splitSlash cs with
    | nil => exact absurd hsc (splitSlash_ne_nil cs)
    | cons a t =>
      rw [splitSlash, hsc] at hc
      have hat : a ∈ splitSlash cs := hsc ▸ List.mem_cons_self a t
      have htsub : ∀ x ∈ t, x ∈ splitSlash cs := fun x hx =>
        hsc ▸ List.mem_cons_of_mem a hx
      have hc2 : c ∈ (if ch = '/' then [] :: a :: t else (ch :: a) :: t) := hc
      by_cases hch : ch = '/'
      · rw [if_pos hch] at hc2
        rcases List.mem_cons.1 hc2 with rfl | hmem
        · simp
        · rcases List.mem_cons.1 hmem with rfl | hmem2
          · exact ih c hat
          · exact ih c (htsub c hmem2)
      · rw [if_neg hch] at hc2
        rcases List.mem_cons.1 hc2 with rfl | hmem
        · intro hsl
          rcases List.mem_cons.1 hsl with he | hmem2
          · exact hch he.symm
          · exact ih a hat hmem2
        · exact ih c (htsub c hmem)

/-- A slash-free character list is its own single component. -/
theorem splitSlash_of_no_slash :
    ∀ (l : List Char), '/' ∉ l → splitSlash l = [l] := by
  intro l
  induction l with
  | nil => intro _; rfl
  | cons c cs ih =>
    intro h
    have hc : c ≠ '/' := by
      intro he
      exact h (he ▸ List.mem_cons_self c cs)
    have hcs : '/' ∉ cs := fun hm => h (List.mem_cons_of_mem _ hm)
    rw [splitSlash, ih hcs]
    simp [hc]

/-- An element returned by `getLast?` is a member of the list. -/
theorem lastMem {α : Type} :
    ∀ (l : List α) (a : α), l.getLast? = some a → a ∈ l := by
  intro l
  induction l with
  | nil =>
    intro a h
    simp [List.getLast?] at h
  | cons x xs ih =>
    intro a h
    cases xs with
    | nil =>
      simp [List.getLast?] at h
      simp [h]
    | cons y ys =>
      rw [List.getLast?_cons_cons] at h
      exact List.mem_cons_of_mem x (ih a h)

/-- C9: when the content-disposition header supplies a UTF-8-decodable
filename parameter, `parse_file_name` returns its (first valid) value and it
becomes the resolved destination name; when `parse_file_name` fails, the
resolved name is the final path segment of the URL; the name actually handed
to `File::create` is the resolved name with directory components stripped by
`Path::file_name()`, which never contains a slash; and a slash-free ordinary
name (such as `report.csv`) passes through the stripping unchanged. -/
theorem filename_resolution_spec :
    (∀ (r : HttpResponse) (params : List DispParam) (s : List Char),
        r.dispParams = some params → first_valid params = some s →
        parse_file_name r = Except.ok s ∧ resolved_file_name r = some s)
    ∧ (∀ (r : HttpResponse) (e : DownloadError),
        parse_file_name r = Except.error e →
        resolved_file_name r = r.urlPathSegments.getLast?)
    ∧ (∀ (l c : List Char), path_file_name l = some c → '/' ∉ c)
    ∧ (∀ (l : List Char), '/' ∉ l → l ≠ [] → l ≠ ['.'] → l ≠ ['.', '.'] →
        path_file_name l = some l)
    ∧ (∀ r : HttpResponse,
        created_path r = (resolved_file_name r).bind path_file_name) := by
  refine ⟨?_, ?_, ?_, ?_, ?_⟩
  · intro r params s h1 h2
    constructor
    · simp [parse_file_name, h1, h2]
    · simp [resolved_file_name, parse_file_name, h1, h2]
  · intro r e h
    simp [resolved_file_name, h]
  · intro l c h
    rw [path_file_name] at h
    cases hg : ((splitSlash l).filter
        (fun c => !c.isEmpty && c != ['.'])).getLast? with
    | none =>
      rw [hg] at h
      have hred : (none : Option (List Char)) = some c := h
      simp at hred
    | some c0 =>
      rw [hg] at h
      have hred : (if c0 = ['.', '.'] then none else some c0) = some c := h
      by_cases hdd : c0 = ['.', '.']
      · rw [if_pos hdd] at hred
        simp at hred
      · rw [if_neg hdd] at hred
        have hc : c0 = c := Option.some.inj hred
        have hmem : c0 ∈ (splitSlash l).filter
            (fun c => !c.isEmpty && c != ['.']) :=
          lastMem _ c0 hg
        exact hc ▸ splitSlash_no_slash l c0 (List.mem_of_mem_filter hmem)
  · intro l h1 h2 h3 h4
    rw [path_file_name, splitSlash_of_no_slash l h1]
    have hf : (!l.isEmpty && l != ['.']) = true := by
      simp [h3]
      intro he
      exact absurd he h2
    simp [List.filter, hf, h4]
  · intro r
    rfl

/-- Witness for `filename_resolution_spec`: a disposition filename parameter
`report.csv` wins over the URL's last segment `other.bin`, and stripping
leaves `report.csv` unchanged. -/
theorem filename_resolution_spec_witness :
    resolved_file_name respReport = some "report.csv".toList
    ∧ path_file_name "report.csv".toList = some "report.csv".toList :=
  ⟨(filename_resolution_spec.1 respReport
      [DispParam.filenameParam (some "report.csv".toList)]
      "report.csv".toList rfl rfl).2,
   filename_resolution_spec.2.2.2.1 "report.csv".toList
      (by decide) (by decide) (by decide) (by decide)⟩

end Sledge
